import Mathlib

/-!
Verification of the CryptoReels game-logic core (symbol catalog, random
decoder, reel generator, Megaways win evaluator and cascading-reels engine)
against its natural-language specification.

The definitions below are a shallow embedding of the JavaScript sources
src/backend/services/symbolConfigurationService.js (SymbolConfigurationService
and SlotEngineService) and src/backend/services/symbolRendererService.js
(CascadingReelsService).  Conventions used throughout:

* JavaScript numbers that carry money/payout values are embedded as rationals.
  Every fractional literal appearing in the source (0.5, 0.75, 1.5, 2.5, 3.75,
  7.5, 37.5) is an exact multiple of 1/4, hence exactly representable both as
  an IEEE double and as the rational written here.
* A grid cell is Option String: some id is a symbol, none is the null
  placeholder the cascade engine writes into removed cells.
* BigInt values are embedded as Int, the BigInt arithmetic shift right as
  floor division by a power of two, and the AND with the low-bit mask
  (1n << bitCount) - 1n as the nonnegative residue modulo 2 ^ bitCount
  (these are the exact two's-complement semantics of the JS operators).
* Mutation of the service object (admin updates) is embedded as state
  passing: an operation returns its JS return value paired with the new
  catalog state.
-/

/-- Rational 1/2, the float literal 0.5 of the source (exact in binary). -/
def q1_2 : ℚ := ⟨1, 2, by decide, by decide⟩

/-- Rational 3/4, the float literal 0.75 of the source (exact in binary). -/
def q3_4 : ℚ := ⟨3, 4, by decide, by decide⟩

/-- Rational 3/2, the float literal 1.5 of the source (exact in binary). -/
def q3_2 : ℚ := ⟨3, 2, by decide, by decide⟩

/-- Rational 5/2, the float literal 2.5 of the source (exact in binary). -/
def q5_2 : ℚ := ⟨5, 2, by decide, by decide⟩

/-- Rational 15/4, the float literal 3.75 of the source (exact in binary). -/
def q15_4 : ℚ := ⟨15, 4, by decide, by decide⟩

/-- Rational 15/2, the float literal 7.5 of the source (exact in binary). -/
def q15_2 : ℚ := ⟨15, 2, by decide, by decide⟩

/-- Rational 75/2, the float literal 37.5 of the source (exact in binary). -/
def q75_2 : ℚ := ⟨75, 2, by decide, by decide⟩

/-- Symbol ids of the catalog (string keys of this.symbols, insertion order). -/
def diamondHandsId : String := "diamond_hands"

/-- Crypto wallet symbol id. -/
def cryptoWalletId : String := "crypto_wallet"

/-- Blockchain block symbol id. -/
def blockchainBlockId : String := "blockchain_block"

/-- DeFi token symbol id. -/
def defiTokenId : String := "defi_token"

/-- NFT collectible symbol id. -/
def nftCollectibleId : String := "nft_collectible"

/-- Solana symbol id. -/
def solId : String := "sol"

/-- Ethereum symbol id. -/
def ethId : String := "eth"

/-- Bitcoin symbol id. -/
def btcId : String := "btc"

/-- Wild (golden crypto coin) symbol id. -/
def wildId : String := "wild"

/-- Scatter (NFT marketplace) symbol id. -/
def scatterId : String := "scatter"

/-- Premium NFT character symbol id. -/
def nftCharacterId : String := "nft_character"

/-- One entry of this.symbols: the fields of a symbol definition that the
game logic reads (id, name, type, value, weight).  Rendering-only fields
(imageUrl, animationData, soundEffects, description, rarity) are omitted;
no game-logic code path inspects them.  The weight is an Int: all weights in
the repository are integers, and the sign matters to updateSymbolWeight. -/
structure GameSymbol where
  id : String
  name : String
  type : String
  value : Int
  weight : Int
  deriving DecidableEq

/-- Payout table of one symbol: this.payoutTables entries map the keys
3, 4, 5, 6 to bet multipliers. -/
structure PayoutTable where
  p3 : ℚ
  p4 : ℚ
  p5 : ℚ
  p6 : ℚ
  deriving DecidableEq

/-- Reading payoutTable[count] in JS: the keys 3..6 are present, any other
key yields undefined (embedded as none). -/
def PayoutTable.entry (t : PayoutTable) : Nat → Option ℚ
  | 3 => some t.p3
  | 4 => some t.p4
  | 5 => some t.p5
  | 6 => some t.p6
  | _ => none

/-- Mutable state of a SymbolConfigurationService instance: the symbol list
(insertion order of this.symbols) and the payout tables (insertion order of
this.payoutTables). -/
structure Catalog where
  symbols : List GameSymbol
  payoutTables : List (String × PayoutTable)
  deriving DecidableEq

/-- Symbol library built by the service constructor, in insertion order. -/
def defaultSymbols : List GameSymbol :=
  [ { id := diamondHandsId, name := "Diamond Hands", type := "regular", value := 10, weight := 45 },
    { id := cryptoWalletId, name := "Crypto Wallet", type := "regular", value := 15, weight := 40 },
    { id := blockchainBlockId, name := "Blockchain Block", type := "regular", value := 20, weight := 35 },
    { id := defiTokenId, name := "DeFi Token", type := "regular", value := 30, weight := 30 },
    { id := nftCollectibleId, name := "NFT Collectible", type := "regular", value := 40, weight := 25 },
    { id := solId, name := "Solana (SOL)", type := "regular", value := 60, weight := 22 },
    { id := ethId, name := "Ethereum (ETH)", type := "regular", value := 80, weight := 18 },
    { id := btcId, name := "Bitcoin (BTC)", type := "regular", value := 100, weight := 15 },
    { id := wildId, name := "Golden Crypto Coin", type := "wild", value := 0, weight := 5 },
    { id := scatterId, name := "NFT Marketplace", type := "scatter", value := 0, weight := 3 },
    { id := nftCharacterId, name := "NFT Character", type := "nft_premium", value := 150, weight := 8 } ]

/-- Payout tables built by the service constructor, in insertion order. -/
def defaultPayoutTables : List (String × PayoutTable) :=
  [ (diamondHandsId, { p3 := q1_2, p4 := q5_2, p5 := 10, p6 := 50 }),
    (cryptoWalletId, { p3 := q3_4, p4 := q15_4, p5 := 15, p6 := 75 }),
    (blockchainBlockId, { p3 := 1, p4 := 5, p5 := 20, p6 := 100 }),
    (defiTokenId, { p3 := q3_2, p4 := q15_2, p5 := 30, p6 := 150 }),
    (nftCollectibleId, { p3 := 2, p4 := 10, p5 := 40, p6 := 200 }),
    (solId, { p3 := 3, p4 := 15, p5 := 60, p6 := 300 }),
    (ethId, { p3 := 4, p4 := 20, p5 := 80, p6 := 400 }),
    (btcId, { p3 := 5, p4 := 25, p5 := 100, p6 := 500 }),
    (nftCharacterId, { p3 := q15_2, p4 := q75_2, p5 := 150, p6 := 750 }),
    (wildId, { p3 := 0, p4 := 0, p5 := 0, p6 := 0 }),
    (scatterId, { p3 := 0, p4 := 0, p5 := 0, p6 := 0 }) ]

/-- Catalog state right after the SymbolConfigurationService constructor. -/
def defaultCatalog : Catalog :=
  { symbols := defaultSymbols, payoutTables := defaultPayoutTables }

/-- Property access this.symbols[symbolId] (undefined embedded as none). -/
def lookupSymbol (cat : Catalog) (symbolId : String) : Option GameSymbol :=
  cat.symbols.find? (fun s => s.id == symbolId)

/-- Property access this.payoutTables[symbolId]. -/
def lookupPayoutTable (cat : Catalog) (symbolId : String) : Option PayoutTable :=
  (cat.payoutTables.find? (fun p => p.1 == symbolId)).map (fun p => p.2)

/-- SymbolConfigurationService.getSymbolPayout: returns 0 when the table or
the entry is missing, or when the entry is falsy (the number 0). -/
def getSymbolPayout (cat : Catalog) (symbolId : String) (count : Nat) : ℚ :=
  match lookupPayoutTable cat symbolId with
  | none => 0
  | some t =>
    match t.entry count with
    | none => 0
    | some v => if v = 0 then 0 else v

/-- Substitution list of this.specialBehaviors.wild.substitutes. -/
def wildSubstitutes : List String :=
  [diamondHandsId, cryptoWalletId, blockchainBlockId, defiTokenId,
   nftCollectibleId, solId, ethId, btcId, nftCharacterId]

/-- Exclusion list of this.specialBehaviors.wild.doesNotSubstitute. -/
def wildDoesNotSubstitute : List String :=
  [scatterId]

/-- SymbolConfigurationService.canSubstitute: only the key wild maps to a
behavior of type substitution; every other id yields no behavior (or one of
a different type) and the answer false. -/
def canSubstitute (wildSymbol targetSymbol : String) : Bool :=
  if wildSymbol == wildId then
    wildSubstitutes.contains targetSymbol && !(wildDoesNotSubstitute.contains targetSymbol)
  else
    false

/-- SymbolConfigurationService.createWeightedSymbolArray called with the
default options (includeSpecial = true, excludeSymbols = []), as every game
code path does: each symbol id is pushed weight-many times, in symbol
insertion order.  The JS loop for (let i = 0; i < weight; i++) pushes
max(weight, 0) copies for an integral weight, hence toNat. -/
def createWeightedSymbolArray (cat : Catalog) : List String :=
  (cat.symbols.map (fun s => List.replicate s.weight.toNat s.id)).flatten

/-- SymbolConfigurationService.updateSymbolWeight: rejects an unknown id and
a weight strictly below zero, otherwise overwrites the weight in place.
Returned pair: (JS return value, catalog state afterwards). -/
def updateSymbolWeight (cat : Catalog) (symbolId : String) (newWeight : Int) :
    Bool × Catalog :=
  if (lookupSymbol cat symbolId).isNone || decide (newWeight < 0) then
    (false, cat)
  else
    (true, { cat with
      symbols := cat.symbols.map (fun s =>
        if s.id == symbolId then { s with weight := newWeight } else s) })

/-- Value of one property of the newPayouts argument object: either a JS
number or a value of any other runtime type. -/
inductive JsValue where
  | num (q : ℚ)
  | nonNumber
  deriving DecidableEq

/-- Argument object of updateSymbolPayouts, restricted to the four keys the
validation inspects; none embeds a missing key (hasOwnProperty false). -/
structure NewPayouts where
  e3 : Option JsValue
  e4 : Option JsValue
  e5 : Option JsValue
  e6 : Option JsValue
  deriving DecidableEq

/-- SymbolConfigurationService.updateSymbolPayouts: rejects an id without a
symbol or payout table, and any argument in which one of the keys 3, 4, 5, 6
is absent or not a number; otherwise replaces the payout table by a copy of
the argument.  Returned pair: (JS return value, catalog state afterwards). -/
def updateSymbolPayouts (cat : Catalog) (symbolId : String) (np : NewPayouts) :
    Bool × Catalog :=
  if (lookupSymbol cat symbolId).isNone || (lookupPayoutTable cat symbolId).isNone then
    (false, cat)
  else
    match np.e3, np.e4, np.e5, np.e6 with
    | some (.num a), some (.num b), some (.num c), some (.num d) =>
      (true, { cat with
        payoutTables := cat.payoutTables.map (fun p =>
          if p.1 == symbolId then (p.1, { p3 := a, p4 := b, p5 := c, p6 := d }) else p) })
    | _, _, _, _ => (false, cat)

/-- Result object of SymbolConfigurationService.validateConfiguration. -/
structure ValidationResult where
  isValid : Bool
  errors : List String
  warnings : List String
  deriving DecidableEq

/-- Error list built by the first loop of validateConfiguration: missing
required properties (falsy name or type; the weight of the embedding is
always a number), non-positive weight, and a regular symbol without payout
table. -/
def configErrors (cat : Catalog) : List String :=
  cat.symbols.foldl (fun errs s =>
    let errs := if s.name == "" || s.type == "" then
      errs ++ ["Symbol " ++ s.id ++ " missing required properties"] else errs
    let errs := if s.weight ≤ 0 then
      errs ++ ["Symbol " ++ s.id ++ " has invalid weight"] else errs
    if s.type == "regular" && (lookupPayoutTable cat s.id).isNone then
      errs ++ ["Regular symbol " ++ s.id ++ " missing payout table"] else errs) []

/-- Warning list built by the second loop of validateConfiguration: payout
table for an unknown symbol, and payouts that decrease from one combination
length to the next. -/
def configWarnings (cat : Catalog) : List String :=
  cat.payoutTables.foldl (fun ws p =>
    let ws := if (lookupSymbol cat p.1).isNone then
      ws ++ ["Payout table exists for unknown symbol: " ++ p.1] else ws
    let ws := if p.2.p4 < p.2.p3 then
      ws ++ ["Symbol " ++ p.1 ++ " payouts do not increase with combination length"] else ws
    let ws := if p.2.p5 < p.2.p4 then
      ws ++ ["Symbol " ++ p.1 ++ " payouts do not increase with combination length"] else ws
    if p.2.p6 < p.2.p5 then
      ws ++ ["Symbol " ++ p.1 ++ " payouts do not increase with combination length"] else ws) []

/-- SymbolConfigurationService.validateConfiguration: valid iff no errors. -/
def validateConfiguration (cat : Catalog) : ValidationResult :=
  let errors := configErrors cat
  { isValid := errors.isEmpty, errors := errors, warnings := configWarnings cat }

/-- Hexadecimal digit value of a character, none for a non-hex character
(48..57 are the codes of the digits 0..9, 97..102 of a..f, 65..70 of A..F). -/
def hexDigitVal (c : Char) : Option Nat :=
  if 48 ≤ c.toNat ∧ c.toNat ≤ 57 then some (c.toNat - 48)
  else if 97 ≤ c.toNat ∧ c.toNat ≤ 102 then some (c.toNat - 97 + 10)
  else if 65 ≤ c.toNat ∧ c.toNat ≤ 70 then some (c.toNat - 65 + 10)
  else none

/-- Decimal digit value of a character (codes 48..57 are the digits 0..9). -/
def decDigitVal (c : Char) : Option Nat :=
  if 48 ≤ c.toNat ∧ c.toNat ≤ 57 then some (c.toNat - 48)
  else none

/-- Binary digit value of a character (codes 48..49 are the digits 0..1). -/
def binDigitVal (c : Char) : Option Nat :=
  if 48 ≤ c.toNat ∧ c.toNat ≤ 49 then some (c.toNat - 48)
  else none

/-- Octal digit value of a character (codes 48..55 are the digits 0..7). -/
def octDigitVal (c : Char) : Option Nat :=
  if 48 ≤ c.toNat ∧ c.toNat ≤ 55 then some (c.toNat - 48)
  else none

/-- Left-to-right digit accumulation of a positional numeral; fails on the
first character that is not a digit of the base. -/
def parseDigitsAux (digitVal : Char → Option Nat) (base : Nat) :
    List Char → Nat → Option Nat
  | [], acc => some acc
  | c :: cs, acc =>
    match digitVal c with
    | none => none
    | some d => parseDigitsAux digitVal base cs (acc * base + d)

/-- Digit sequence of a numeral: at least one digit, all of the base. -/
def parseDigits (digitVal : Char → Option Nat) (base : Nat) (cs : List Char) :
    Option Nat :=
  match cs with
  | [] => none
  | _ => parseDigitsAux digitVal base cs 0

/-- StrWhiteSpaceChar of the ECMAScript StringToBigInt grammar: the
WhiteSpace code points TAB 9, VT 11, FF 12, SP 32, NBSP 160, the Zs
separators 5760, 8192..8202, 8239, 8287, 12288, ZWNBSP 65279, and the
LineTerminator code points LF 10, CR 13, LS 8232, PS 8233. -/
def isJsWhitespace (ch : Char) : Bool :=
  decide ((9 ≤ ch.toNat ∧ ch.toNat ≤ 13) ∨ ch.toNat = 32 ∨ ch.toNat = 160 ∨
    ch.toNat = 5760 ∨ (8192 ≤ ch.toNat ∧ ch.toNat ≤ 8202) ∨ ch.toNat = 8232 ∨
    ch.toNat = 8233 ∨ ch.toNat = 8239 ∨ ch.toNat = 8287 ∨ ch.toNat = 12288 ∨
    ch.toNat = 65279)

/-- Leading and trailing whitespace trimming performed by StringToBigInt
before the numeral grammar is applied. -/
def trimJsWhitespace (cs : List Char) : List Char :=
  ((cs.dropWhile isJsWhitespace).reverse.dropWhile isJsWhitespace).reverse

/-- Numeral grammar of the JS builtin BigInt(string) (StringToBigInt) on an
already whitespace-trimmed character list: the empty remainder is 0n; a
0x / 0X prefix introduces a hex numeral, 0b / 0B binary, 0o / 0O octal;
anything else must be an optionally signed decimal numeral; a parse failure
is the thrown SyntaxError, embedded as none. -/
def parseBigIntChars (cs : List Char) : Option Int :=
  if cs = [] then some 0
  else if cs.take 2 = ['0', 'x'] ∨ cs.take 2 = ['0', 'X'] then
    (parseDigits hexDigitVal 16 (cs.drop 2)).map (fun n => (n : Int))
  else if cs.take 2 = ['0', 'b'] ∨ cs.take 2 = ['0', 'B'] then
    (parseDigits binDigitVal 2 (cs.drop 2)).map (fun n => (n : Int))
  else if cs.take 2 = ['0', 'o'] ∨ cs.take 2 = ['0', 'O'] then
    (parseDigits octDigitVal 8 (cs.drop 2)).map (fun n => (n : Int))
  else if cs.take 1 = ['-'] then
    (parseDigits decDigitVal 10 (cs.drop 1)).map (fun n => -(n : Int))
  else if cs.take 1 = ['+'] then
    (parseDigits decDigitVal 10 (cs.drop 1)).map (fun n => (n : Int))
  else
    (parseDigits decDigitVal 10 cs).map (fun n => (n : Int))

/-- Semantics of the JS builtin BigInt(string): trim leading and trailing
whitespace, then apply the numeral grammar. -/
def strToBigInt (s : String) : Option Int :=
  parseBigIntChars (trimJsWhitespace s.data)

/-- Value of the JS Number(bigint) conversion on a nonnegative BigInt:
integers below 2 ^ 53 are exactly representable as doubles and are returned
unchanged; a larger integer n with e = floor(log2 n) is rounded to the
nearest multiple of 2 ^ (e - 52) (the spacing of doubles in its binade),
ties to the even multiple.  The carry case of rounding up to the next
binade is a power of two, which the same formula yields.  Values at or
beyond the double overflow threshold 2 ^ 1024 round to Infinity in JS,
which this integer model does not represent; no theorem of this
development evaluates the conversion in that region. -/
def jsNumberNat (n : Nat) : Nat :=
  if n < 2 ^ 53 then n
  else
    let k := n.log2 - 52
    let q := n / 2 ^ k
    let r := n % 2 ^ k
    let half := 2 ^ (k - 1)
    (if half < r then q + 1
     else if r < half then q
     else if q % 2 = 0 then q else q + 1) * 2 ^ k

/-- SlotEngineService.extractBits: BigInt(vrfNumber), arithmetic shift right
by startBit, AND with (1n << bitCount) - 1n, then the final
return Number(extractedBits).  On a BigInt (arbitrary-precision two's
complement) the shift is floor division by 2 ^ startBit and the AND with
the low-bit mask is the nonnegative residue modulo 2 ^ bitCount, which is
how both are embedded; the Number conversion rounds the nonnegative result
to the nearest double (jsNumberNat, exact below 2 ^ 53); a SyntaxError of
BigInt(vrfNumber) propagates as none. -/
def extractBits (vrfNumber : String) (startBit bitCount : Nat) : Option Nat :=
  match strToBigInt vrfNumber with
  | none => none
  | some v =>
    some (jsNumberNat (((v.fdiv ((2 : Int) ^ startBit)).emod
      ((2 : Int) ^ bitCount)).toNat))

/-- Value of extractBits on an already parsed nonnegative random input,
used by the slot-engine and cascade embeddings, which thread the parsed
random value instead of reparsing the hex string at every extraction.  The
engine only ever extracts 3 or 8 bits, so the extracted value is below 256,
far below the 2 ^ 53 exactness threshold of the final Number conversion,
and this Nat-level value is exactly what the source returns there (see
extractBits_of_parse_exact). -/
def extractBitsN (vrf : Nat) (startBit bitCount : Nat) : Nat :=
  (vrf >>> startBit) % 2 ^ bitCount

/-- One reel of the grid: index, height, and cell contents top to bottom
(none is the null placeholder for a removed cell). -/
structure Reel where
  reelIndex : Nat
  height : Nat
  symbols : List (Option String)
  deriving DecidableEq

/-- SlotEngineService.generateReelConfiguration: 6 reels; reel i consumes
the 3 bits at offset i*3 (the source advances a running vrfIndex by 3 per
reel starting from 0) and has height 2 + (value mod 6), with an empty
symbol list. -/
def generateReelConfiguration (vrf : Nat) : List Reel :=
  (List.range 6).map (fun i =>
    { reelIndex := i, height := 2 + extractBitsN vrf (i * 3) 3 % 6, symbols := [] })

/-- Symbol selection of one 8-bit draw: pool[value mod pool.length]. -/
def drawSymbol (pool : List String) (bits : Nat) : String :=
  pool.getD (bits % pool.length) ""

/-- Inner loop of SlotEngineService.populateReels: draw count symbols, 8
bits each, advancing the running offset; returns the drawn cells and the
offset after the last draw. -/
def drawSymbols (vrf : Nat) (pool : List String) :
    Nat → Nat → List (Option String) × Nat
  | offset, 0 => ([], offset)
  | offset, count + 1 =>
    let cell := some (drawSymbol pool (extractBitsN vrf offset 8))
    let rest := drawSymbols vrf pool (offset + 8) count
    (cell :: rest.1, rest.2)

/-- Reel loop of SlotEngineService.populateReels, threading the running bit
offset across reels; each reel pushes height-many drawn symbols onto its
(normally empty) symbol list. -/
def populateReelsAux (vrf : Nat) (pool : List String) :
    List Reel → Nat → List Reel × Nat
  | [], offset => ([], offset)
  | r :: rs, offset =>
    let drawn := drawSymbols vrf pool offset r.height
    let rest := populateReelsAux vrf pool rs drawn.2
    ({ r with symbols := r.symbols ++ drawn.1 } :: rest.1, rest.2)

/-- SlotEngineService.populateReels: starts at bit offset 18 (after the six
3-bit heights) and consumes 8 bits per cell in reel-then-position order from
the weighted symbol pool of the catalog. -/
def populateReels (cat : Catalog) (vrf : Nat) (reelConfig : List Reel) : List Reel :=
  (populateReelsAux vrf (createWeightedSymbolArray cat) reelConfig 18).1

/-- One cell position recorded in a winning combination. -/
structure Position where
  reel : Nat
  position : Nat
  symbol : Option String
  deriving DecidableEq

/-- One winning-combination entry pushed by calculateWinningCombinations. -/
structure WinCombo where
  symbol : Option String
  length : Nat
  positions : List Position
  basePayout : ℚ
  waysCount : Nat
  deriving DecidableEq

/-- Wild-substitution test of findSymbolCombination for a target that is a
grid cell value: canSubstitute(wild, target) with a null target is false
(null is in no substitution list). -/
def canWildSubstituteFor (target : Option String) : Bool :=
  match target with
  | some id => canSubstitute wildId id
  | none => false

/-- Per-reel scan of findSymbolCombination: index of the first cell (top to
bottom) equal to the target, or equal to wild when wild substitutes for the
target. -/
def findMatchIndex (target : Option String) (cells : List (Option String)) :
    Option Nat :=
  cells.findIdx? (fun cell => cell == target ||
    (canWildSubstituteFor target && cell == some wildId))

/-- Reel loop of SlotEngineService.findSymbolCombination: walk the reels
left to right, record one matching position per reel, stop at the first
reel without a match. -/
def findSymbolCombinationAux (target : Option String) :
    Nat → List Reel → List Position
  | _, [] => []
  | i, r :: rs =>
    match findMatchIndex target r.symbols with
    | none => []
    | some j =>
      { reel := i, position := j, symbol := r.symbols.getD j none } ::
        findSymbolCombinationAux target (i + 1) rs

/-- SlotEngineService.findSymbolCombination, starting at the leftmost reel. -/
def findSymbolCombination (reels : List Reel) (target : Option String) :
    List Position :=
  findSymbolCombinationAux target 0 reels

/-- SlotEngineService.calculateWaysToWin: product of the reel heights,
capped at the 6-reel Megaways maximum 117649 = 7 ^ 6. -/
def maxWaysToWin : Nat := 117649

/-- Ways-to-win product with the cap. -/
def calculateWaysToWin (reels : List Reel) : Nat :=
  min (reels.foldl (fun ways r => ways * r.height) 1) maxWaysToWin

/-- SlotEngineService.countWaysForCombination: over the first
combinationLength reels, multiply the per-reel counts of cells equal to the
target symbol or to wild (a direct string comparison in the source, without
canSubstitute). -/
def countWaysForCombination (reels : List Reel) (target : Option String)
    (combinationLength : Nat) : Nat :=
  (reels.take combinationLength).foldl (fun ways r =>
    ways * (r.symbols.filter (fun cell => cell == target || cell == some wildId)).length) 1

/-- Insertion step of the JS Set used by getUniqueSymbols: sets preserve
insertion order and skip duplicates. -/
def addUnique (acc : List (Option String)) (cell : Option String) :
    List (Option String) :=
  if acc.contains cell then acc else acc ++ [cell]

/-- SlotEngineService.getUniqueSymbols: every distinct cell value of the
grid in first-occurrence order (a null cell is collected too, as in the
source; it never produces a combination because it is not a symbol id). -/
def getUniqueSymbols (reels : List Reel) : List (Option String) :=
  reels.foldl (fun acc r => r.symbols.foldl addUnique acc) []

/-- SlotEngineService.calculateSymbolPayout on a cell value: the payout
table is keyed by symbol id strings, so a null target pays 0. -/
def calculateSymbolPayout (cat : Catalog) (target : Option String)
    (length : Nat) : ℚ :=
  match target with
  | some id => getSymbolPayout cat id length
  | none => 0

/-- Body of the symbolsOnReels.forEach loop of calculateWinningCombinations:
the entry pushed for one distinct grid symbol, or none when the symbol is
the scatter, the adjacency run is shorter than 3, or its payout is 0. -/
def comboFor (cat : Catalog) (reels : List Reel) (target : Option String) :
    Option WinCombo :=
  if target == some scatterId then none
  else if 3 ≤ (findSymbolCombination reels target).length then
    if 0 < calculateSymbolPayout cat target (findSymbolCombination reels target).length then
      some { symbol := target,
             length := (findSymbolCombination reels target).length,
             positions := findSymbolCombination reels target,
             basePayout := calculateSymbolPayout cat target
               (findSymbolCombination reels target).length,
             waysCount := countWaysForCombination reels target
               (findSymbolCombination reels target).length }
    else none
  else none

/-- Result object of SlotEngineService.calculateWinningCombinations. -/
structure EvalResult where
  combinations : List WinCombo
  totalWaysToWin : Nat
  hasWins : Bool
  deriving DecidableEq

/-- SlotEngineService.calculateWinningCombinations: one optional entry per
distinct grid symbol in first-occurrence order; hasWins iff at least one
entry was pushed. -/
def calculateWinningCombinations (cat : Catalog) (reels : List Reel) : EvalResult :=
  let combos := (getUniqueSymbols reels).filterMap (comboFor cat reels)
  { combinations := combos,
    totalWaysToWin := calculateWaysToWin reels,
    hasWins := decide (0 < combos.length) }

/-- SlotEngineService.calculateTotalPayout: sum over the combinations of
basePayout * betAmount, accumulated left to right. -/
def calculateTotalPayout (combos : List WinCombo) (betAmount : ℚ) : ℚ :=
  combos.foldl (fun total c => total + c.basePayout * betAmount) 0

/-- CascadingReelsService.cascadeMultipliers. -/
def cascadeMultipliers : List ℚ := [1, 2, 3, 5, 8, 12, 20]

/-- CascadingReelsService.maxCascades. -/
def maxCascades : Nat := 6

/-- CascadingReelsService.getCascadeMultiplier, also the expression
cascadeMultipliers[Math.min(level, cascadeMultipliers.length - 1)] used by
the cascade loop. -/
def getCascadeMultiplier (cascadeLevel : Nat) : ℚ :=
  cascadeMultipliers.getD (min cascadeLevel (cascadeMultipliers.length - 1)) 0

/-- One record of the cascadeResults array of processCascadingReels. -/
structure CascadeRound where
  level : Nat
  reelState : List Reel
  winningCombinations : List WinCombo
  multiplier : ℚ
  levelPayout : ℚ
  totalPayout : ℚ
  deriving DecidableEq

/-- CascadingReelsService.removeWinningSymbols: every (reel, position) pair
referenced by a winning combination is overwritten with null. -/
def removeWinningSymbols (reels : List Reel) (combos : List WinCombo) : List Reel :=
  let keys := combos.flatMap (fun c => c.positions.map (fun p => (p.reel, p.position)))
  (reels.enum).map (fun ri =>
    { ri.2 with symbols := (ri.2.symbols.enum).map (fun si =>
        if keys.contains (ri.1, si.1) then none else si.2) })

/-- CascadingReelsService.dropSymbolsDown on one reel: the non-null cells,
then a fresh array of length height filled from the bottom up, position
height-1-i receiving remaining[remaining.length-1-i] while i runs below
remaining.length and null above. -/
def dropReel (r : Reel) : Reel :=
  let remaining := r.symbols.filter (fun cell => cell.isSome)
  { r with symbols := (List.range r.height).map (fun j =>
      if r.height - 1 - j < remaining.length then
        remaining.getD (remaining.length - 1 - (r.height - 1 - j)) none
      else none) }

/-- CascadingReelsService.dropSymbolsDown over the grid. -/
def dropSymbolsDown (reels : List Reel) : List Reel :=
  reels.map dropReel

/-- Cell loop of CascadingReelsService.generateNewSymbols on one reel: a
null cell is replaced by an 8-bit draw at the running offset, a filled cell
is kept and consumes nothing. -/
def fillCells (vrf : Nat) (pool : List String) :
    List (Option String) → Nat → List (Option String) × Nat
  | [], offset => ([], offset)
  | none :: cells, offset =>
    let cell := some (drawSymbol pool (extractBitsN vrf offset 8))
    let rest := fillCells vrf pool cells (offset + 8)
    (cell :: rest.1, rest.2)
  | some s :: cells, offset =>
    let rest := fillCells vrf pool cells offset
    (some s :: rest.1, rest.2)

/-- Reel loop of CascadingReelsService.generateNewSymbols, threading the
running offset across reels. -/
def generateNewSymbolsAux (vrf : Nat) (pool : List String) :
    List Reel → Nat → List Reel × Nat
  | [], offset => ([], offset)
  | r :: rs, offset =>
    let filled := fillCells vrf pool r.symbols offset
    let rest := generateNewSymbolsAux vrf pool rs filled.2
    ({ r with symbols := filled.1 } :: rest.1, rest.2)

/-- CascadingReelsService.generateNewSymbols: refill every null cell from
the weighted pool, 8 bits per cell, starting at vrfOffset. -/
def generateNewSymbols (cat : Catalog) (vrf : Nat) (reels : List Reel)
    (vrfOffset : Nat) : List Reel :=
  (generateNewSymbolsAux vrf (createWeightedSymbolArray cat) reels vrfOffset).1

/-- CascadingReelsService.calculateVrfBitsNeeded: 8 bits per null cell. -/
def calculateVrfBitsNeeded (reels : List Reel) : Nat :=
  (reels.map (fun r => (r.symbols.filter (fun cell => cell.isNone)).length)).sum * 8

/-- While loop of processCascadingReels.  The fuel argument encodes the
guard cascadeLevel < maxCascades: it is maintained equal to
maxCascades - cascadeLevel, so fuel 0 is exactly the guard failing.  The
source removes currentWins.combinations, the evaluation of the grid held in
currentReels at the top of the iteration; calculateWinningCombinations is
pure, so recomputing that evaluation from the grid here is the same value,
and the hasW flag carries currentWins.hasWins of the guard.  The
result is (recorded rounds, final reel state, final running total,
refill-offset trace); the last component is ghost instrumentation recording
the vrfOffset value passed to generateNewSymbols in each iteration, used by
the offset-accounting theorems and read by nothing else. -/
def cascadeLoop (cat : Catalog) (vrf : Nat) (bet : ℚ) :
    Nat → Nat → List Reel → Bool → ℚ → Nat →
    List CascadeRound × List Reel × ℚ × List Nat
  | 0, _, reels, _, total, _ => ([], reels, total, [])
  | fuel + 1, cascadeLevel, reels, hasW, total, vrfOffset =>
    if hasW then
      let level := cascadeLevel + 1
      let removed := removeWinningSymbols reels
        (calculateWinningCombinations cat reels).combinations
      let dropped := dropSymbolsDown removed
      let refilled := generateNewSymbols cat vrf dropped vrfOffset
      let vrfOffset' := vrfOffset + calculateVrfBitsNeeded refilled
      let cascadeWins := calculateWinningCombinations cat refilled
      if cascadeWins.hasWins then
        let cascadeMultiplier := getCascadeMultiplier level
        let basePayout := calculateTotalPayout cascadeWins.combinations bet
        let multipliedPayout := basePayout * cascadeMultiplier
        let total' := total + multipliedPayout
        let round : CascadeRound :=
          { level := level, reelState := refilled,
            winningCombinations := cascadeWins.combinations,
            multiplier := cascadeMultiplier,
            levelPayout := multipliedPayout, totalPayout := total' }
        let rest := cascadeLoop cat vrf bet fuel level refilled cascadeWins.hasWins
          total' vrfOffset'
        (round :: rest.1, rest.2.1, rest.2.2.1, vrfOffset :: rest.2.2.2)
      else
        ([], refilled, total, [vrfOffset])
    else
      ([], reels, total, [])

/-- Result object of CascadingReelsService.processCascadingReels, with the
ghost refillOffsets trace of the loop appended. -/
structure CascadeResult where
  cascades : List CascadeRound
  finalReelState : List Reel
  totalCascades : Nat
  totalWinnings : ℚ
  maxMultiplierReached : ℚ
  refillOffsets : List Nat
  deriving DecidableEq

/-- Math.max spread over the recorded multipliers, 1 when none. -/
def maxMultiplierOf (rounds : List CascadeRound) : ℚ :=
  match rounds.map (fun c => c.multiplier) with
  | [] => 1
  | m :: ms => ms.foldl max m

/-- CascadingReelsService.processCascadingReels: evaluate the initial grid;
with no initial win return immediately; otherwise record round 0 at
multiplier cascadeMultipliers[0] and run the cascade loop, whose running
bit offset starts at the constant 256 and is advanced by
calculateVrfBitsNeeded taken of the already refilled grid. -/
def processCascadingReels (cat : Catalog) (initialReelResult : List Reel)
    (vrf : Nat) (betAmount : ℚ) : CascadeResult :=
  let initialWins := calculateWinningCombinations cat initialReelResult
  if initialWins.hasWins then
    let initialPayout := calculateTotalPayout initialWins.combinations betAmount
    let total0 := 0 + initialPayout
    let round0 : CascadeRound :=
      { level := 0, reelState := initialReelResult,
        winningCombinations := initialWins.combinations,
        multiplier := cascadeMultipliers.getD 0 0,
        levelPayout := initialPayout, totalPayout := total0 }
    let looped := cascadeLoop cat vrf betAmount maxCascades 0 initialReelResult
      initialWins.hasWins total0 256
    { cascades := round0 :: looped.1,
      finalReelState := looped.2.1,
      totalCascades := (round0 :: looped.1).length,
      totalWinnings := looped.2.2.1,
      maxMultiplierReached := maxMultiplierOf (round0 :: looped.1),
      refillOffsets := looped.2.2.2 }
  else
    { cascades := [], finalReelState := initialReelResult, totalCascades := 0,
      totalWinnings := 0, maxMultiplierReached := 1, refillOffsets := [] }

/-- Concrete grid: six reels of height 2 filled with btc cells. -/
def gridAllBtc : List Reel :=
  (List.range 6).map (fun i =>
    { reelIndex := i, height := 2, symbols := [some btcId, some btcId] })

/-- Concrete grid: btc on the first cell of reels 0..2, scatter elsewhere. -/
def gridBtcScatter : List Reel :=
  [ { reelIndex := 0, height := 2, symbols := [some btcId, some scatterId] },
    { reelIndex := 1, height := 2, symbols := [some btcId, some scatterId] },
    { reelIndex := 2, height := 2, symbols := [some btcId, some scatterId] },
    { reelIndex := 3, height := 2, symbols := [some scatterId, some scatterId] },
    { reelIndex := 4, height := 2, symbols := [some scatterId, some scatterId] },
    { reelIndex := 5, height := 2, symbols := [some scatterId, some scatterId] } ]

/-- Concrete random value whose three 8-bit draws at offsets 256, 264 and
272 all decode to 235, the first pool index holding the scatter symbol. -/
def vrfScatterRefill : Nat := 15461355 * 2 ^ 256

/-- Concrete grid: six reels of height 2 filled with wild cells. -/
def gridAllWild : List Reel :=
  (List.range 6).map (fun i =>
    { reelIndex := i, height := 2, symbols := [some wildId, some wildId] })

/-- Concrete reel heights 2..7 with populated-shape irrelevant cells. -/
def gridHeights234567 : List Reel :=
  (List.range 6).map (fun i =>
    { reelIndex := i, height := 2 + i, symbols := [] })

/-- Fallback round used only as the List.getD default in closed statements. -/
def emptyRound : CascadeRound :=
  { level := 0, reelState := [], winningCombinations := [], multiplier := 0,
    levelPayout := 0, totalPayout := 0 }

/-- Well-formedness of a random input in the sense of the specification: the
0x prefix followed by at least one hex digit. -/
def wellFormedHex (s : String) : Bool :=
  s.data.take 2 = ['0', 'x'] && !(s.data.drop 2).isEmpty &&
    (s.data.drop 2).all (fun c => (hexDigitVal c).isSome)

/-- Unsigned integer denoted by a well-formed 0x-prefixed hex string. -/
def hexNat (s : String) : Nat :=
  (parseDigits hexDigitVal 16 (s.data.drop 2)).getD 0

/-- Fallback reel used only as the List.getD default in closed statements. -/
def emptyReel : Reel :=
  { reelIndex := 0, height := 0, symbols := [] }


/-- Concrete one-reel grid with an interleaved null cell. -/
def gridDropWitness : List Reel :=
  [ { reelIndex := 0, height := 3, symbols := [some btcId, none, some ethId] } ]

set_option maxRecDepth 8000

/-- Digit accumulation succeeds when every character is a digit. -/
theorem parseDigitsAux_isSome (digitVal : Char → Option Nat) (base : Nat) :
    ∀ (cs : List Char) (acc : Nat), (∀ c ∈ cs, (digitVal c).isSome) →
      (parseDigitsAux digitVal base cs acc).isSome
  | [], _, _ => rfl
  | c :: cs, acc, h => by
    have hc := h c (List.mem_cons_self c cs)
    obtain ⟨d, hd⟩ := Option.isSome_iff_exists.mp hc
    simp only [parseDigitsAux, hd]
    exact parseDigitsAux_isSome digitVal base cs (acc * base + d)
      (fun x hx => h x (List.mem_cons_of_mem c hx))

/-- Digit accumulation fails when some character is not a digit. -/
theorem parseDigitsAux_none (digitVal : Char → Option Nat) (base : Nat) :
    ∀ (cs : List Char) (acc : Nat), (∃ c ∈ cs, digitVal c = none) →
      parseDigitsAux digitVal base cs acc = none
  | [], _, h => absurd h (by simp)
  | c :: cs, acc, h => by
    rcases h with ⟨x, hx, hxn⟩
    rcases List.mem_cons.mp hx with rfl | hx'
    · simp only [parseDigitsAux, hxn]
    · cases hd : digitVal c with
      | none => simp only [parseDigitsAux, hd]
      | some d =>
        simp only [parseDigitsAux, hd]
        exact parseDigitsAux_none digitVal base cs (acc * base + d) ⟨x, hx', hxn⟩

/-- Value bound of digit accumulation: with digits below the base, the
result is below (acc + 1) * base ^ length. -/
theorem parseDigitsAux_lt (digitVal : Char → Option Nat) (base : Nat)
    (hb : ∀ c d, digitVal c = some d → d < base) :
    ∀ (cs : List Char) (acc v : Nat),
      parseDigitsAux digitVal base cs acc = some v → v < (acc + 1) * base ^ cs.length
  | [], acc, v, h => by
    simp only [parseDigitsAux, Option.some_inj] at h
    simp only [List.length_nil, pow_zero, Nat.mul_one, ← h]
    exact Nat.lt_succ_self acc
  | c :: cs, acc, v, h => by
    cases hd : digitVal c with
    | none =>
      rw [parseDigitsAux, hd] at h
      exact absurd h (by simp)
    | some d =>
      rw [parseDigitsAux, hd] at h
      have hdb := hb c d hd
      have ih := parseDigitsAux_lt digitVal base hb cs (acc * base + d) v h
      calc v < (acc * base + d + 1) * base ^ cs.length := ih
        _ ≤ ((acc + 1) * base) * base ^ cs.length := by
            have hstep : acc * base + d + 1 ≤ (acc + 1) * base := by nlinarith
            exact Nat.mul_le_mul_right _ hstep
        _ = (acc + 1) * base ^ (c :: cs).length := by
            rw [List.length_cons, pow_succ]; ring

/-- Hex digit values are below 16. -/
theorem hexDigitVal_lt (c : Char) (d : Nat) (h : hexDigitVal c = some d) : d < 16 := by
  unfold hexDigitVal at h
  split_ifs at h with h1 h2 h3
  · simp only [Option.some_inj] at h; omega
  · simp only [Option.some_inj] at h; omega
  · simp only [Option.some_inj] at h; omega

/-- Parsing a nonempty digit list is the accumulator run from 0. -/
theorem parseDigits_eq (digitVal : Char → Option Nat) (base : Nat)
    (cs : List Char) (h : cs ≠ []) :
    parseDigits digitVal base cs = parseDigitsAux digitVal base cs 0 := by
  cases cs with
  | nil => exact absurd rfl h
  | cons c cs => rfl

/-- Hex digits are not StringToBigInt whitespace. -/
theorem not_whitespace_of_hexDigit (c : Char) (h : (hexDigitVal c).isSome = true) :
    isJsWhitespace c = false := by
  unfold hexDigitVal at h
  unfold isJsWhitespace
  by_cases h1 : 48 ≤ c.toNat ∧ c.toNat ≤ 57
  · simp only [decide_eq_false_iff_not]
    omega
  · rw [if_neg h1] at h
    by_cases h2 : 97 ≤ c.toNat ∧ c.toNat ≤ 102
    · simp only [decide_eq_false_iff_not]
      omega
    · rw [if_neg h2] at h
      by_cases h3 : 65 ≤ c.toNat ∧ c.toNat ≤ 70
      · simp only [decide_eq_false_iff_not]
        omega
      · rw [if_neg h3] at h
        simp at h

/-- Trimming is the identity when neither end is whitespace. -/
theorem trimJsWhitespace_eq_self (cs : List Char)
    (h1 : ∀ c, cs.head? = some c → isJsWhitespace c = false)
    (h2 : ∀ c, cs.getLast? = some c → isJsWhitespace c = false) :
    trimJsWhitespace cs = cs := by
  cases cs with
  | nil => rfl
  | cons c0 cs' =>
    unfold trimJsWhitespace
    have hc0 : isJsWhitespace c0 = false := h1 c0 rfl
    rw [List.dropWhile_cons, hc0, if_neg (by decide)]
    cases hrev : (c0 :: cs').reverse with
    | nil => exact absurd hrev (by simp)
    | cons d ds =>
      have hd : (c0 :: cs').getLast? = some d := by
        rw [← List.head?_reverse, hrev]
        rfl
      have hdw : isJsWhitespace d = false := h2 d hd
      rw [List.dropWhile_cons, hdw, if_neg (by decide), ← hrev,
        List.reverse_reverse]

/-- A well-formed hex string carries no whitespace at either end, so the
StringToBigInt trimming leaves it unchanged. -/
theorem trim_of_wellFormed (s : String) (h : wellFormedHex s = true) :
    trimJsWhitespace s.data = s.data := by
  unfold wellFormedHex at h
  simp only [Bool.and_eq_true, decide_eq_true_eq, Bool.not_eq_true',
    List.isEmpty_eq_false, List.all_eq_true] at h
  obtain ⟨⟨htake, hne⟩, hall⟩ := h
  have hcons : s.data = '0' :: 'x' :: s.data.drop 2 := by
    conv_lhs => rw [← List.take_append_drop 2 s.data]
    rw [htake]
    rfl
  apply trimJsWhitespace_eq_self
  · intro c hc
    rw [hcons] at hc
    simp only [List.head?_cons, Option.some_inj] at hc
    subst hc
    decide
  · intro c hc
    have hmem : c ∈ s.data := List.mem_of_getLast?_eq_some hc
    rw [hcons] at hmem
    rcases List.mem_cons.mp hmem with rfl | hmem'
    · decide
    · rcases List.mem_cons.mp hmem' with rfl | hmem''
      · decide
      · exact not_whitespace_of_hexDigit c (by simpa using hall c hmem'')

/-- A well-formed hex string parses under BigInt to its hex numeral value. -/
theorem strToBigInt_of_wellFormed (s : String) (h : wellFormedHex s = true) :
    strToBigInt s = some ((hexNat s : Nat) : Int) := by
  have htrim : trimJsWhitespace s.data = s.data := trim_of_wellFormed s h
  unfold wellFormedHex at h
  simp only [Bool.and_eq_true, decide_eq_true_eq, Bool.not_eq_true',
    List.isEmpty_eq_false, List.all_eq_true] at h
  obtain ⟨⟨htake, hne⟩, hall⟩ := h
  have hdata : s.data ≠ [] := by
    intro hnil
    rw [hnil] at htake
    exact absurd htake (by simp)
  have hsome : (parseDigits hexDigitVal 16 (s.data.drop 2)).isSome := by
    rw [parseDigits_eq hexDigitVal 16 (s.data.drop 2) hne]
    exact parseDigitsAux_isSome hexDigitVal 16 (s.data.drop 2) 0
      (fun x hx => by simpa using hall x hx)
  obtain ⟨v, hv⟩ := Option.isSome_iff_exists.mp hsome
  have hhex : hexNat s = v := by
    unfold hexNat
    rw [hv]
    rfl
  unfold strToBigInt
  rw [htrim]
  unfold parseBigIntChars
  rw [if_neg hdata, if_pos (Or.inl htake), hv, hhex]
  rfl

/-- Value of extractBits on an input that parses to a nonnegative integer:
shift right, take the residue modulo 2 ^ bitCount, and apply the final
Number conversion. -/
theorem extractBits_of_parse (s : String) (n : Nat)
    (hs : strToBigInt s = some ((n : Nat) : Int)) (a c : Nat) :
    extractBits s a c = some (jsNumberNat (n >>> a % 2 ^ c)) := by
  have h1 : ((2 : Int) ^ a) = ((2 ^ a : Nat) : Int) := by push_cast; ring
  have h2 : ((2 : Int) ^ c) = ((2 ^ c : Nat) : Int) := by push_cast; ring
  simp only [extractBits, hs, h1, h2]
  have h3 : (((n : Nat) : Int).fdiv ((2 ^ a : Nat) : Int)) = ((n / 2 ^ a : Nat) : Int) :=
    (Int.ofNat_fdiv _ _).symm
  rw [h3]
  have h4 : ((n / 2 ^ a : Nat) : Int).emod ((2 ^ c : Nat) : Int)
      = ((n / 2 ^ a % 2 ^ c : Nat) : Int) := rfl
  rw [h4, Nat.shiftRight_eq_div_pow, Int.toNat_ofNat]

/-- The Number conversion is the identity below the 53-bit threshold. -/
theorem jsNumberNat_eq_self (n : Nat) (h : n < 2 ^ 53) : jsNumberNat n = n := by
  unfold jsNumberNat
  rw [if_pos h]

/-- For bit counts up to 53 the extracted residue is below 2 ^ 53, the
Number conversion is exact, and extractBits returns the masked value
itself. -/
theorem extractBits_of_parse_exact (s : String) (n : Nat)
    (hs : strToBigInt s = some ((n : Nat) : Int)) (a c : Nat) (hc : c ≤ 53) :
    extractBits s a c = some (n >>> a % 2 ^ c) := by
  rw [extractBits_of_parse s n hs a c, jsNumberNat_eq_self]
  exact lt_of_lt_of_le (Nat.mod_lt _ (pow_pos (by norm_num) c))
    (Nat.pow_le_pow_right (by norm_num) hc)

/-- The Number conversion rounds the 64-bit all-ones value up to 2 ^ 64:
its floor log2 is 63, doubles in that binade are multiples of 2 ^ 11, and
the residue 2 ^ 11 - 1 is above the halfway point 2 ^ 10. -/
theorem jsNumberNat_allones64 : jsNumberNat (2 ^ 64 - 1) = 2 ^ 64 := by
  unfold jsNumberNat
  rw [if_neg (by norm_num)]
  have hlog : (2 ^ 64 - 1 : Nat).log2 = 63 := by
    rw [Nat.log2_eq_log_two]
    exact Nat.log_eq_of_pow_le_of_lt_pow (by norm_num) (by norm_num)
  rw [hlog]
  decide

/-- The value of a well-formed hex string is below 16 to the digit count. -/
theorem hexNat_lt (s : String) (h : wellFormedHex s = true) :
    hexNat s < 16 ^ (s.length - 2) := by
  unfold wellFormedHex at h
  simp only [Bool.and_eq_true, decide_eq_true_eq, Bool.not_eq_true',
    List.isEmpty_eq_false, List.all_eq_true] at h
  obtain ⟨⟨_, hne⟩, hall⟩ := h
  have hsome : (parseDigitsAux hexDigitVal 16 (s.data.drop 2) 0).isSome :=
    parseDigitsAux_isSome hexDigitVal 16 (s.data.drop 2) 0
      (fun x hx => by simpa using hall x hx)
  obtain ⟨v, hv⟩ := Option.isSome_iff_exists.mp hsome
  have hhex : hexNat s = v := by
    unfold hexNat
    rw [parseDigits_eq hexDigitVal 16 (s.data.drop 2) hne, hv]
    rfl
  have hlt := parseDigitsAux_lt hexDigitVal 16 hexDigitVal_lt (s.data.drop 2) 0 v hv
  rw [hhex]
  have hlen : (s.data.drop 2).length = s.length - 2 := by
    rw [List.length_drop]
    rfl
  rw [hlen] at hlt
  simpa using hlt

/-- C5 counterexample: the final return Number(extractedBits) of the source
rounds BigInts at or above 2 ^ 53 to the nearest double, so at bit count 64
on the all-ones 64-bit input the program returns 2 ^ 64, which is outside
[0, 2 ^ 64 - 1] and differs from the masked value 2 ^ 64 - 1; the claim,
quantified over every positive bit count, is therefore false. -/
theorem c5_counterexample_number_rounding :
    extractBits ("0xFFFFFFFFFFFFFFFF") 0 64 = some (2 ^ 64)
  ∧ ¬ extractBits ("0xFFFFFFFFFFFFFFFF") 0 64
      = some (hexNat ("0xFFFFFFFFFFFFFFFF") >>> 0 % 2 ^ 64) := by
  have hw : wellFormedHex ("0xFFFFFFFFFFFFFFFF") = true := by decide
  have heq := extractBits_of_parse ("0xFFFFFFFFFFFFFFFF")
    (hexNat ("0xFFFFFFFFFFFFFFFF")) (strToBigInt_of_wellFormed _ hw) 0 64
  have hhex : hexNat ("0xFFFFFFFFFFFFFFFF") = 2 ^ 64 - 1 := by decide
  rw [hhex] at heq ⊢
  have hmask : (2 ^ 64 - 1 : Nat) >>> 0 % 2 ^ 64 = 2 ^ 64 - 1 := by decide
  rw [hmask] at heq ⊢
  rw [heq, jsNumberNat_allones64]
  refine ⟨rfl, by decide⟩

/-- C5 (amended): for every well-formed 0x-prefixed hex string h, start bit
s and positive bit count c up to 53 (the exactness threshold of the final
Number conversion), extractBits h s c is the unsigned value of h shifted
right by s and reduced modulo 2 ^ c (the c-bit mask), hence below 2 ^ c;
start bits at or beyond the 4-bits-per-digit width of the input yield 0;
and the three concrete examples of the specification hold.  Beyond 53 bits
the Number conversion rounds, so the masked value is not always returned. -/
theorem c5_extractBits_shift_mask :
    (∀ (h : String) (s c : Nat), wellFormedHex h = true → 0 < c → c ≤ 53 →
        extractBits h s c = some (hexNat h >>> s % 2 ^ c)
      ∧ hexNat h >>> s % 2 ^ c < 2 ^ c
      ∧ (4 * (h.length - 2) ≤ s → extractBits h s c = some 0))
  ∧ extractBits ("0xFF") 0 3 = some 7
  ∧ extractBits ("0xFF") 3 3 = some 7
  ∧ extractBits ("0xFF") 6 2 = some 3 := by
  refine ⟨?_, by decide, by decide, by decide⟩
  intro h s c hw _hc hc53
  have hparse := strToBigInt_of_wellFormed h hw
  have heq := extractBits_of_parse_exact h (hexNat h) hparse s c hc53
  refine ⟨heq, Nat.mod_lt _ (pow_pos (by norm_num) c), ?_⟩
  intro hs
  rw [heq]
  have hlt : hexNat h < 2 ^ s := by
    have h16 : (16 : Nat) ^ (h.length - 2) = 2 ^ (4 * (h.length - 2)) := by
      rw [pow_mul]
      norm_num
    calc hexNat h < 16 ^ (h.length - 2) := hexNat_lt h hw
      _ = 2 ^ (4 * (h.length - 2)) := h16
      _ ≤ 2 ^ s := Nat.pow_le_pow_right (by norm_num) hs
  rw [Nat.shiftRight_eq_div_pow, Nat.div_eq_of_lt hlt]
  simp

/-- Witness for the amended C5 at the input 0xFF, start bit 0, bit count 3. -/
theorem c5_witness :
    (wellFormedHex ("0xFF") = true ∧ 0 < 3 ∧ 3 ≤ 53)
  ∧ extractBits ("0xFF") 0 3 = some (hexNat ("0xFF") >>> 0 % 2 ^ 3) :=
  ⟨⟨by decide, by decide, by decide⟩,
    (c5_extractBits_shift_mask.1 ("0xFF") 0 3 (by decide) (by decide)
      (by decide)).1⟩

/-- C6 counterexample: the decimal string 255 has no 0x prefix, yet
extractBits does not fail on it; BigInt parses it as the decimal numeral
255, refuting the claim that every input missing the 0x prefix fails. -/
theorem c6_counterexample_missing_prefix :
    extractBits ("255") 0 8 = some 255 := by decide

/-- C6 (amended): extractBits fails on any string that, after the
leading/trailing whitespace trimming of StringToBigInt, has a 0x prefix
followed by a non-hex character among its remaining characters, and never
fails on well-formed 0x-prefixed hex input; but an input missing the 0x
prefix does not necessarily fail: it is accepted whenever it parses as a
plain integer numeral, as the decimal string 255 does, and trailing
whitespace is likewise accepted, as in the input 0xFF followed by a
space. -/
theorem c6_amended_error_behavior :
    (∀ (h : String) (s c : Nat),
        (trimJsWhitespace h.data).take 2 = ['0', 'x'] →
        (∃ ch ∈ (trimJsWhitespace h.data).drop 2, hexDigitVal ch = none) →
        extractBits h s c = none)
  ∧ (∀ (h : String) (s c : Nat), wellFormedHex h = true →
        (extractBits h s c).isSome = true)
  ∧ extractBits ("255") 0 8 = some 255
  ∧ extractBits ("0xFF ") 0 8 = some 255 := by
  refine ⟨?_, ?_, by decide, by decide⟩
  · rintro h s c htake ⟨ch, hch, hchn⟩
    have hdata : trimJsWhitespace h.data ≠ [] := by
      intro hnil
      rw [hnil] at htake
      exact absurd htake (by simp)
    have hnil2 : (trimJsWhitespace h.data).drop 2 ≠ [] := by
      intro hnil
      rw [hnil] at hch
      exact absurd hch (by simp)
    have hnone : parseDigits hexDigitVal 16 ((trimJsWhitespace h.data).drop 2)
        = none := by
      rw [parseDigits_eq hexDigitVal 16 ((trimJsWhitespace h.data).drop 2) hnil2]
      exact parseDigitsAux_none hexDigitVal 16 ((trimJsWhitespace h.data).drop 2) 0
        ⟨ch, hch, hchn⟩
    unfold extractBits strToBigInt parseBigIntChars
    rw [if_neg hdata, if_pos (Or.inl htake), hnone]
    rfl
  · intro h s c hw
    rw [extractBits_of_parse h (hexNat h) (strToBigInt_of_wellFormed h hw) s c]
    rfl

/-- Witness for the amended C6: a 0x-prefixed input with the non-hex
character Z fails. -/
theorem c6_witness :
    (trimJsWhitespace ("0xZZ").data).take 2 = ['0', 'x']
  ∧ extractBits ("0xZZ") 0 8 = none :=
  ⟨by decide,
    c6_amended_error_behavior.1 ("0xZZ") 0 8 (by decide) ⟨'Z', by decide, by decide⟩⟩

/-- C7: generateReelConfiguration always returns exactly 6 reels; reel i
carries reelIndex i, an empty symbol list, and height
2 + (extractBits(random, i*3, 3) mod 6), which lies in 2..7.  Determinism
(identical random input, identical heights) is definitional: the embedding
is a pure function of the random value. -/
theorem c7_generateReelConfiguration (vrf : Nat) :
    (generateReelConfiguration vrf).length = 6
  ∧ ∀ i, i < 6 →
      ((generateReelConfiguration vrf).getD i emptyReel).reelIndex = i
    ∧ ((generateReelConfiguration vrf).getD i emptyReel).symbols = []
    ∧ ((generateReelConfiguration vrf).getD i emptyReel).height
        = 2 + extractBitsN vrf (i * 3) 3 % 6
    ∧ 2 ≤ ((generateReelConfiguration vrf).getD i emptyReel).height
    ∧ ((generateReelConfiguration vrf).getD i emptyReel).height ≤ 7 := by
  constructor
  · simp [generateReelConfiguration]
  · intro i hi
    have hg : (generateReelConfiguration vrf).getD i emptyReel
        = { reelIndex := i, height := 2 + extractBitsN vrf (i * 3) 3 % 6,
            symbols := [] } := by
      unfold generateReelConfiguration
      rw [List.getD_eq_getElem _ _ (by simpa using hi)]
      simp
    rw [hg]
    have hmod : extractBitsN vrf (i * 3) 3 % 6 < 6 := Nat.mod_lt _ (by norm_num)
    refine ⟨rfl, rfl, rfl, ?_, ?_⟩ <;> dsimp only <;> omega

/-- Witness for C7 at the random value 5 and reel index 0. -/
theorem c7_witness :
    (0 : Nat) < 6
  ∧ ((generateReelConfiguration 5).getD 0 emptyReel).height
      = 2 + extractBitsN 5 (0 * 3) 3 % 6 :=
  ⟨by decide, ((c7_generateReelConfiguration 5).2 0 (by decide)).2.2.1⟩

/-- Folding the height product from an arbitrary accumulator. -/
theorem foldl_mul_height (l : List Reel) :
    ∀ a : Nat, l.foldl (fun w r => w * r.height) a
      = a * (l.map (fun r => r.height)).prod := by
  induction l with
  | nil => intro a; simp
  | cons r rs ih =>
    intro a
    simp only [List.foldl_cons, List.map_cons, List.prod_cons, ih (a * r.height)]
    ring

/-- A product of naturals bounded by 7 is bounded by 7 to the length. -/
theorem heights_prod_le (l : List Nat) (h : ∀ x ∈ l, x ≤ 7) :
    l.prod ≤ 7 ^ l.length := by
  induction l with
  | nil => simp
  | cons x xs ih =>
    simp only [List.prod_cons, List.length_cons, pow_succ]
    have hx := h x (List.mem_cons_self x xs)
    have hxs := ih (fun y hy => h y (List.mem_cons_of_mem x hy))
    calc x * xs.prod ≤ 7 * xs.prod := Nat.mul_le_mul_right _ hx
      _ ≤ 7 * 7 ^ xs.length := Nat.mul_le_mul_left _ hxs
      _ = 7 ^ xs.length * 7 := Nat.mul_comm _ _

/-- A product of naturals bounded by 7 with one factor differing from 7 is
strictly below 7 to the length. -/
theorem heights_prod_lt (l : List Nat) (h : ∀ x ∈ l, x ≤ 7)
    (hx : ∃ x ∈ l, x ≠ 7) : l.prod < 7 ^ l.length := by
  induction l with
  | nil => exact absurd hx (by simp)
  | cons x xs ih =>
    simp only [List.prod_cons, List.length_cons, pow_succ]
    have hx7 := h x (List.mem_cons_self x xs)
    have hall := fun y hy => h y (List.mem_cons_of_mem x hy)
    have hprodle := heights_prod_le xs hall
    rcases hx with ⟨y, hy, hy7⟩
    rcases List.mem_cons.mp hy with rfl | hy'
    · have hx6 : y ≤ 6 := by omega
      have h1 : y * xs.prod ≤ 6 * 7 ^ xs.length := Nat.mul_le_mul hx6 hprodle
      have hpos : 0 < 7 ^ xs.length := pow_pos (by norm_num) _
      omega
    · have hlt := ih hall ⟨y, hy', hy7⟩
      have h1 : x * xs.prod ≤ 7 * xs.prod := Nat.mul_le_mul_right _ hx7
      omega

/-- C8 counterexample: on the grid with heights 2, 3, 4, 5, 6, 7 the code
returns 2 * 3 * 4 * 5 * 6 * 7 = 5040 ways, not the 2520 the claim cites. -/
theorem c8_counterexample_example_value :
    calculateWaysToWin gridHeights234567 = 5040
  ∧ ¬ calculateWaysToWin gridHeights234567 = 2520 := by
  constructor
  · decide
  · decide

/-- C8 (amended): for a 6-reel grid with heights in 2..7, calculateWaysToWin
is the height product capped at 117649; it is exactly 117649 when every
height is 7 and exactly the raw product when some height differs from 7
(the example heights 2, 3, 4, 5, 6, 7 give 5040 ways, not 2520). -/
theorem c8_waysToWin_capped_product (reels : List Reel) (hlen : reels.length = 6)
    (hh : ∀ r ∈ reels, 2 ≤ r.height ∧ r.height ≤ 7) :
    calculateWaysToWin reels = min ((reels.map (fun r => r.height)).prod) 117649
  ∧ ((∀ r ∈ reels, r.height = 7) → calculateWaysToWin reels = 117649)
  ∧ ((∃ r ∈ reels, r.height ≠ 7) →
      calculateWaysToWin reels = (reels.map (fun r => r.height)).prod) := by
  have hbase : calculateWaysToWin reels
      = min ((reels.map (fun r => r.height)).prod) 117649 := by
    unfold calculateWaysToWin maxWaysToWin
    rw [foldl_mul_height reels 1, one_mul]
  refine ⟨hbase, ?_, ?_⟩
  · intro h7
    have hprod : (reels.map (fun r => r.height)).prod = 117649 := by
      have : (reels.map (fun r => r.height)).prod
          = 7 ^ (reels.map (fun r => r.height)).length := by
        apply List.prod_eq_pow_card
        intro x hx
        rcases List.mem_map.mp hx with ⟨r, hr, rfl⟩
        exact h7 r hr
      rw [this, List.length_map, hlen]
      norm_num
    rw [hbase, hprod]
    exact min_self _
  · intro hex
    have hle : ∀ x ∈ reels.map (fun r => r.height), x ≤ 7 := by
      intro x hx
      rcases List.mem_map.mp hx with ⟨r, hr, rfl⟩
      exact (hh r hr).2
    have hxm : ∃ x ∈ reels.map (fun r => r.height), x ≠ 7 := by
      rcases hex with ⟨r, hr, hr7⟩
      exact ⟨r.height, List.mem_map.mpr ⟨r, hr, rfl⟩, hr7⟩
    have hlt := heights_prod_lt (reels.map (fun r => r.height)) hle hxm
    rw [List.length_map, hlen] at hlt
    have hlt' : (reels.map (fun r => r.height)).prod < 117649 := by
      have : (7 : Nat) ^ 6 = 117649 := by norm_num
      omega
    rw [hbase]
    exact min_eq_left (le_of_lt hlt')

/-- Witness for the amended C8: the heights 2..7 satisfy the hypotheses and
give 5040 ways. -/
theorem c8_witness :
    (gridHeights234567.length = 6
      ∧ ∀ r ∈ gridHeights234567, 2 ≤ r.height ∧ r.height ≤ 7)
  ∧ calculateWaysToWin gridHeights234567 = 5040 :=
  ⟨⟨by decide, by decide⟩,
    ((c8_waysToWin_capped_product gridHeights234567 (by decide) (by decide)).2.2
      (by decide)).trans (by decide)⟩

set_option maxRecDepth 200000

/-- C3 (code bug): updateSymbolWeight accepts the weight 0 for the known
symbol btc (the guard tests newWeight < 0 where the specification and the
validator demand newWeight > 0), returns true, and mutates the weight to 0,
leaving the catalog in a state that the same service's own
validateConfiguration reports as invalid; on the unmodified catalog the
validator reports validity. -/
theorem c3_updateSymbolWeight_accepts_zero :
    (updateSymbolWeight defaultCatalog btcId 0).1 = true
  ∧ ((lookupSymbol (updateSymbolWeight defaultCatalog btcId 0).2 btcId).map
      (fun s => s.weight)) = some 0
  ∧ (validateConfiguration (updateSymbolWeight defaultCatalog btcId 0).2).isValid
      = false
  ∧ (validateConfiguration defaultCatalog).isValid = true := by
  refine ⟨?_, ?_, ?_, ?_⟩ <;> decide

/-- C1 (code bug): on a grid whose six reels have height 2 (18 + 8 * 12 =
114 bits consumed by height generation and initial population), every one
of the six cascade refills reads its bits starting at the constant offset
256: the offset neither starts at 18 + 8 * (sum of heights) nor advances
between rounds, because the code adds calculateVrfBitsNeeded of the grid
after refilling, when no cell is empty any more. -/
theorem c1_refill_offset_constant :
    (processCascadingReels defaultCatalog gridAllBtc 0 1).refillOffsets
      = [256, 256, 256, 256, 256, 256]
  ∧ 18 + 8 * ((gridAllBtc.map (fun r => r.height)).sum) = 114
  ∧ (114 : Nat) ≠ 256 := by
  refine ⟨?_, ?_, ?_⟩ <;> decide

/-- Two reels with equal fields are equal. -/
theorem Reel.eq_of_fields_eq {a b : Reel} (h1 : a.reelIndex = b.reelIndex)
    (h2 : a.height = b.height) (h3 : a.symbols = b.symbols) : a = b := by
  cases a
  cases b
  simp_all

/-- Closed form of dropReel on a well-shaped reel: the non-null cells in
order at the bottom, nulls above. -/
theorem dropReel_symbols_eq (r : Reel) (hw : r.symbols.length = r.height) :
    (dropReel r).symbols
      = List.replicate
          (r.height - (r.symbols.filter (fun cell => cell.isSome)).length)
          (none : Option String)
        ++ r.symbols.filter (fun cell => cell.isSome) := by
  have hle : (r.symbols.filter (fun cell => cell.isSome)).length ≤ r.height := by
    calc (r.symbols.filter (fun cell => cell.isSome)).length
        ≤ r.symbols.length := List.length_filter_le _ _
      _ = r.height := hw
  apply List.ext_getElem
  · simp only [dropReel, List.length_map, List.length_range, List.length_append,
      List.length_replicate]
    omega
  · intro i h1 h2
    simp only [dropReel, List.getElem_map, List.getElem_range]
    simp only [dropReel, List.length_map, List.length_range] at h1
    by_cases hik : i < r.height - (r.symbols.filter (fun cell => cell.isSome)).length
    · rw [List.getElem_append_left (by simpa using hik)]
      rw [if_neg (by omega)]
      simp
    · rw [List.getElem_append_right (by simpa using hik)]
      rw [if_pos (by omega)]
      rw [List.getD_eq_getElem _ _ (by omega)]
      congr 1
      simp only [List.length_replicate]
      omega

/-- The symbol array of dropReel has the reel height as its length. -/
theorem dropReel_symbols_length (r : Reel) :
    (dropReel r).symbols.length = r.height := by
  simp [dropReel]

/-- The non-null cells survive dropReel unchanged and in order. -/
theorem dropReel_filter (r : Reel) (hw : r.symbols.length = r.height) :
    (dropReel r).symbols.filter (fun cell => cell.isSome)
      = r.symbols.filter (fun cell => cell.isSome) := by
  rw [dropReel_symbols_eq r hw, List.filter_append]
  rw [List.filter_replicate_of_neg (by simp)]
  rw [List.filter_eq_self.mpr (fun a ha => List.mem_filter.mp ha |>.2)]
  simp

/-- Filtering the non-null cells of a null-topped reel recovers them. -/
theorem filter_isSome_replicate_append (k : Nat) (rem : List (Option String))
    (hall : ∀ x ∈ rem, x.isSome = true) :
    (List.replicate k (none : Option String) ++ rem).filter
      (fun cell => cell.isSome) = rem := by
  rw [List.filter_append, List.filter_replicate_of_neg (by simp),
    List.filter_eq_self.mpr hall]
  simp

/-- Applying dropReel twice is applying it once. -/
theorem dropReel_idem (r : Reel) (hw : r.symbols.length = r.height) :
    dropReel (dropReel r) = dropReel r := by
  have hh : (dropReel r).height = r.height := rfl
  have hw2 : (dropReel r).symbols.length = (dropReel r).height :=
    dropReel_symbols_length r
  refine Reel.eq_of_fields_eq ?_ ?_ ?_
  · rfl
  · rfl
  · rw [dropReel_symbols_eq (dropReel r) hw2, dropReel_symbols_eq r hw]
    rw [filter_isSome_replicate_append _ _
      (fun a ha => (List.mem_filter.mp ha).2), hh]

/-- C10: dropSymbolsDown is idempotent on well-shaped grids (cell count
equal to height, the shape of every call site), keeps every reel's height
and symbol-array length, keeps the non-null symbols in relative order, and
leaves every null cell above every non-null cell of its reel. -/
theorem c10_dropSymbolsDown_idempotent (reels : List Reel)
    (hw : ∀ r ∈ reels, r.symbols.length = r.height) :
    dropSymbolsDown (dropSymbolsDown reels) = dropSymbolsDown reels
  ∧ ∀ r ∈ reels,
      (dropReel r).height = r.height
    ∧ (dropReel r).symbols.length = r.symbols.length
    ∧ (dropReel r).symbols.filter (fun cell => cell.isSome)
        = r.symbols.filter (fun cell => cell.isSome)
    ∧ ∀ i j, i ≤ j → j < (dropReel r).symbols.length →
        ((dropReel r).symbols.getD i none).isSome = true →
        ((dropReel r).symbols.getD j none).isSome = true := by
  constructor
  · unfold dropSymbolsDown
    rw [List.map_map]
    exact List.map_congr_left (fun r hr => dropReel_idem r (hw r hr))
  · intro r hr
    have hwr := hw r hr
    have hle : (r.symbols.filter (fun cell => cell.isSome)).length ≤ r.height := by
      calc (r.symbols.filter (fun cell => cell.isSome)).length
          ≤ r.symbols.length := List.length_filter_le _ _
        _ = r.height := hwr
    refine ⟨rfl, by rw [dropReel_symbols_length, hwr], dropReel_filter r hwr, ?_⟩
    intro i j hij hj hi
    rw [dropReel_symbols_eq r hwr] at hi ⊢
    rw [dropReel_symbols_length] at hj
    by_cases hik : i < r.height - (r.symbols.filter (fun cell => cell.isSome)).length
    · rw [List.getD_append _ _ _ _ (by simpa using hik)] at hi
      simp [List.getD_eq_getElem?_getD] at hi
    · rw [List.getD_append_right _ _ _ _ (by simpa using hik)] at hi
      rw [List.getD_append_right _ _ _ _ (by simp; omega)]
      have hjlt : j - (List.replicate
          (r.height - (r.symbols.filter (fun cell => cell.isSome)).length)
          (none : Option String)).length
          < (r.symbols.filter (fun cell => cell.isSome)).length := by
        simp only [List.length_replicate]
        omega
      rw [List.getD_eq_getElem _ _ hjlt]
      have hmem := List.getElem_mem hjlt
      exact List.mem_filter.mp hmem |>.2

/-- Witness for C10: a one-reel grid with an interleaved null. -/
theorem c10_witness :
    (∀ r ∈ gridDropWitness, r.symbols.length = r.height)
  ∧ dropSymbolsDown (dropSymbolsDown gridDropWitness)
      = dropSymbolsDown gridDropWitness :=
  ⟨by decide,
    (c10_dropSymbolsDown_idempotent gridDropWitness (by decide)).1⟩

/-- Membership after one Set insertion step. -/
theorem mem_addUnique (acc : List (Option String)) (cell x : Option String) :
    x ∈ addUnique acc cell ↔ x ∈ acc ∨ x = cell := by
  unfold addUnique
  by_cases hc : acc.contains cell
  · rw [if_pos hc]
    have hmem : cell ∈ acc := by simpa using hc
    constructor
    · exact Or.inl
    · rintro (hx | rfl)
      · exact hx
      · exact hmem
  · rw [if_neg hc]
    simp

/-- Membership after folding Set insertion over a cell list. -/
theorem mem_foldl_addUnique (cells : List (Option String)) :
    ∀ (acc : List (Option String)) (x : Option String),
      x ∈ cells.foldl addUnique acc ↔ x ∈ acc ∨ x ∈ cells := by
  induction cells with
  | nil => intro acc x; simp
  | cons c cs ih =>
    intro acc x
    rw [List.foldl_cons, ih (addUnique acc c) x, mem_addUnique]
    simp only [List.mem_cons]
    tauto

/-- A cell value is collected by getUniqueSymbols iff it occurs on the grid. -/
theorem mem_getUniqueSymbols (reels : List Reel) (x : Option String) :
    x ∈ getUniqueSymbols reels ↔ ∃ r ∈ reels, x ∈ r.symbols := by
  have hgen : ∀ (rs : List Reel) (acc : List (Option String)),
      x ∈ rs.foldl (fun acc r => r.symbols.foldl addUnique acc) acc
        ↔ x ∈ acc ∨ ∃ r ∈ rs, x ∈ r.symbols := by
    intro rs
    induction rs with
    | nil => intro acc; simp
    | cons r rs ih =>
      intro acc
      rw [List.foldl_cons, ih, mem_foldl_addUnique]
      simp only [List.mem_cons]
      constructor
      · rintro ((hx | hx) | ⟨r', hr', hx⟩)
        · exact Or.inl hx
        · exact Or.inr ⟨r, Or.inl rfl, hx⟩
        · exact Or.inr ⟨r', Or.inr hr', hx⟩
      · rintro (hx | ⟨r', hr' | hr', hx⟩)
        · exact Or.inl (Or.inl hx)
        · exact Or.inl (Or.inr (hr' ▸ hx))
        · exact Or.inr ⟨r', hr', hx⟩
  have := hgen reels []
  simpa [getUniqueSymbols] using this

/-- The entry built for a target carries that target as its symbol. -/
theorem comboFor_eq_some_symbol (cat : Catalog) (reels : List Reel)
    (t : Option String) (c : WinCombo) (h : comboFor cat reels t = some c) :
    c.symbol = t := by
  unfold comboFor at h
  by_cases h1 : (t == some scatterId) = true
  · rw [if_pos h1] at h
    exact Option.noConfusion h
  · rw [if_neg h1] at h
    by_cases h2 : 3 ≤ (findSymbolCombination reels t).length
    · rw [if_pos h2] at h
      by_cases h3 : 0 < calculateSymbolPayout cat t (findSymbolCombination reels t).length
      · rw [if_pos h3] at h
        cases h
        rfl
      · rw [if_neg h3] at h
        exact Option.noConfusion h
    · rw [if_neg h2] at h
      exact Option.noConfusion h

/-- The scan pushes an entry for a target exactly when the target is not
the scatter, its run reaches length 3, and its payout is positive. -/
theorem comboFor_isSome_iff (cat : Catalog) (reels : List Reel)
    (t : Option String) :
    (comboFor cat reels t).isSome = true ↔
      (t ≠ some scatterId ∧ 3 ≤ (findSymbolCombination reels t).length
        ∧ 0 < calculateSymbolPayout cat t (findSymbolCombination reels t).length) := by
  unfold comboFor
  by_cases h1 : (t == some scatterId) = true
  · rw [if_pos h1]
    simp only [beq_iff_eq] at h1
    simp [h1]
  · rw [if_neg h1]
    simp only [beq_iff_eq] at h1
    by_cases h2 : 3 ≤ (findSymbolCombination reels t).length
    · rw [if_pos h2]
      by_cases h3 : 0 < calculateSymbolPayout cat t (findSymbolCombination reels t).length
      · rw [if_pos h3]
        simp [h1, h2, h3]
      · rw [if_neg h3]
        simp [h1, h2, h3]
    · rw [if_neg h2]
      simp [h1, h2]

/-- C4 (amended): the Win Evaluator produces a winning-combination entry for
a cell value t iff t occurs somewhere on the grid, t is not the scatter, the
left-anchored adjacency run of t (wilds substituting) has length at least 3,
and the catalog payout of t at that run length is strictly positive.  The
occurrence condition is what the original claim omits: the evaluator only
iterates over symbols present on the reels, so a symbol absent from the grid
gets no entry even when wilds alone would form a paying run for it. -/
theorem c4_win_entry_iff (cat : Catalog) (reels : List Reel) (t : Option String) :
    (∃ c ∈ (calculateWinningCombinations cat reels).combinations, c.symbol = t)
  ↔ ((∃ r ∈ reels, t ∈ r.symbols) ∧ t ≠ some scatterId
      ∧ 3 ≤ (findSymbolCombination reels t).length
      ∧ 0 < calculateSymbolPayout cat t (findSymbolCombination reels t).length) := by
  have hcombos : (calculateWinningCombinations cat reels).combinations
      = (getUniqueSymbols reels).filterMap (comboFor cat reels) := rfl
  rw [hcombos]
  constructor
  · rintro ⟨c, hc, rfl⟩
    obtain ⟨a, ha, hfa⟩ := List.mem_filterMap.mp hc
    have hsym := comboFor_eq_some_symbol cat reels a c hfa
    rw [← hsym] at ha hfa
    refine ⟨(mem_getUniqueSymbols reels c.symbol).mp ha, ?_⟩
    have hsome : (comboFor cat reels c.symbol).isSome = true := by
      rw [hfa]
      rfl
    exact (comboFor_isSome_iff cat reels c.symbol).mp hsome
  · rintro ⟨hpres, hcond⟩
    have hmem : t ∈ getUniqueSymbols reels :=
      (mem_getUniqueSymbols reels t).mpr hpres
    have hsome : (comboFor cat reels t).isSome = true :=
      (comboFor_isSome_iff cat reels t).mpr hcond
    obtain ⟨c, hc⟩ := Option.isSome_iff_exists.mp hsome
    exact ⟨c, List.mem_filterMap.mpr ⟨t, hmem, hc⟩,
      comboFor_eq_some_symbol cat reels t c hc⟩

/-- C4 counterexample: on an all-wild grid the run for btc spans all six
reels by substitution and btc pays 500 at length 6, yet no entry for btc is
produced, because btc occurs nowhere on the grid and the evaluator only
visits symbols that do occur; this refutes the claim's if-and-only-if as
stated (without the occurrence condition). -/
theorem c4_counterexample_absent_symbol :
    ¬ ((∃ c ∈ (calculateWinningCombinations defaultCatalog gridAllWild).combinations,
          c.symbol = some btcId)
      ↔ (some btcId ≠ some scatterId
          ∧ 3 ≤ (findSymbolCombination gridAllWild (some btcId)).length
          ∧ 0 < calculateSymbolPayout defaultCatalog (some btcId)
              (findSymbolCombination gridAllWild (some btcId)).length)) := by decide

/-- The clamped multiplier index is min with 6 for the 7-entry table. -/
theorem getCascadeMultiplier_min6 (level : Nat) :
    getCascadeMultiplier level = cascadeMultipliers.getD (min level 6) 0 := rfl

/-- Invariant of the cascade while loop: at most fuel rounds are recorded,
every recorded round's multiplier is the clamped table entry of its level,
the returned running total is the entry total plus the recorded level
payouts, and each recorded round's totalPayout is the entry total plus the
level payouts up to and including that round. -/
theorem cascadeLoop_spec (cat : Catalog) (vrf : Nat) (bet : ℚ) :
    ∀ (fuel cascadeLevel : Nat) (reels : List Reel) (hasW : Bool) (total : ℚ)
      (off : Nat),
      (cascadeLoop cat vrf bet fuel cascadeLevel reels hasW total off).1.length ≤ fuel
    ∧ (∀ rd ∈ (cascadeLoop cat vrf bet fuel cascadeLevel reels hasW total off).1,
        rd.multiplier = getCascadeMultiplier rd.level)
    ∧ (cascadeLoop cat vrf bet fuel cascadeLevel reels hasW total off).2.2.1
        = total + ((cascadeLoop cat vrf bet fuel cascadeLevel reels hasW total off).1.map
            (fun rd => rd.levelPayout)).sum
    ∧ ∀ i, i < (cascadeLoop cat vrf bet fuel cascadeLevel reels hasW total off).1.length →
        ((cascadeLoop cat vrf bet fuel cascadeLevel reels hasW total off).1.getD i
            emptyRound).totalPayout
          = total + (((cascadeLoop cat vrf bet fuel cascadeLevel reels hasW total
              off).1.take (i + 1)).map (fun rd => rd.levelPayout)).sum := by
  intro fuel
  induction fuel with
  | zero =>
    intro level reels hasW total off
    refine ⟨?_, ?_, ?_, ?_⟩ <;> simp [cascadeLoop]
  | succ fuel ih =>
    intro level reels hasW total off
    cases hasW with
    | false =>
      refine ⟨?_, ?_, ?_, ?_⟩ <;> simp [cascadeLoop]
    | true =>
      simp only [cascadeLoop]
      by_cases hEv : (calculateWinningCombinations cat
          (generateNewSymbols cat vrf
            (dropSymbolsDown (removeWinningSymbols reels
              (calculateWinningCombinations cat reels).combinations)) off)).hasWins = true
      · simp only [hEv, if_true]
        have IH := ih (level + 1)
          (generateNewSymbols cat vrf
            (dropSymbolsDown (removeWinningSymbols reels
              (calculateWinningCombinations cat reels).combinations)) off)
          true
          (total + calculateTotalPayout
            (calculateWinningCombinations cat
              (generateNewSymbols cat vrf
                (dropSymbolsDown (removeWinningSymbols reels
                  (calculateWinningCombinations cat reels).combinations)) off)).combinations
              bet * getCascadeMultiplier (level + 1))
          (off + calculateVrfBitsNeeded
            (generateNewSymbols cat vrf
              (dropSymbolsDown (removeWinningSymbols reels
                (calculateWinningCombinations cat reels).combinations)) off))
        obtain ⟨IH1, IH2, IH3, IH4⟩ := IH
        refine ⟨?_, ?_, ?_, ?_⟩
        · simpa using Nat.succ_le_succ IH1
        · intro rd hrd
          rcases List.mem_cons.mp hrd with rfl | hrd'
          · rfl
          · exact IH2 rd hrd'
        · simp only [List.map_cons, List.sum_cons]
          rw [IH3]
          ring
        · intro i hi
          cases i with
          | zero =>
            simp only [List.getD_cons_zero, List.take_succ_cons, List.take_zero,
              List.map_cons, List.map_nil, List.sum_cons, List.sum_nil]
            ring
          | succ i =>
            simp only [List.getD_cons_succ, List.take_succ_cons, List.map_cons,
              List.sum_cons]
            simp only [List.length_cons] at hi
            rw [IH4 i (by omega)]
            ring
      · simp only [hEv, if_false]
        refine ⟨?_, ?_, ?_, ?_⟩ <;> simp

/-- C2: processCascadingReels records at most 7 rounds (the level-0 round
plus at most maxCascades = 6 cascade rounds), every recorded round at level
L carries the multiplier cascadeMultipliers[min(L, 6)], and a level-0 round
always carries multiplier 1. -/
theorem c2_round_count_and_multipliers (cat : Catalog)
    (initialReelResult : List Reel) (vrf : Nat) (betAmount : ℚ) :
    (processCascadingReels cat initialReelResult vrf betAmount).cascades.length ≤ 7
  ∧ (∀ rd ∈ (processCascadingReels cat initialReelResult vrf betAmount).cascades,
      rd.multiplier = cascadeMultipliers.getD (min rd.level 6) 0)
  ∧ (∀ rd ∈ (processCascadingReels cat initialReelResult vrf betAmount).cascades,
      rd.level = 0 → rd.multiplier = 1) := by
  simp only [processCascadingReels]
  by_cases hW : (calculateWinningCombinations cat initialReelResult).hasWins = true
  · simp only [hW, if_true]
    have S := cascadeLoop_spec cat vrf betAmount maxCascades 0 initialReelResult
      true (0 + calculateTotalPayout
        (calculateWinningCombinations cat initialReelResult).combinations betAmount) 256
    obtain ⟨S1, S2, -, -⟩ := S
    refine ⟨?_, ?_, ?_⟩
    · simp only [List.length_cons]
      have : maxCascades = 6 := rfl
      omega
    · intro rd hrd
      rcases List.mem_cons.mp hrd with rfl | hrd'
      · rfl
      · rw [S2 rd hrd', getCascadeMultiplier_min6]
    · intro rd hrd hlvl
      rcases List.mem_cons.mp hrd with rfl | hrd'
      · rfl
      · rw [S2 rd hrd', hlvl]
        rfl
  · simp only [Bool.not_eq_true] at hW
    simp [hW]

/-- Witness for C2 at a concrete spin that records exactly one round. -/
theorem c2_witness :
    0 < (processCascadingReels defaultCatalog gridBtcScatter
          vrfScatterRefill 1).cascades.length
  ∧ ((processCascadingReels defaultCatalog gridBtcScatter
        vrfScatterRefill 1).cascades.getD 0 emptyRound).level = 0
  ∧ ((processCascadingReels defaultCatalog gridBtcScatter
        vrfScatterRefill 1).cascades.getD 0 emptyRound).multiplier = 1 := by
  have hlen : 0 < (processCascadingReels defaultCatalog gridBtcScatter
      vrfScatterRefill 1).cascades.length := by decide
  refine ⟨hlen, by decide, ?_⟩
  have h := (c2_round_count_and_multipliers defaultCatalog gridBtcScatter
    vrfScatterRefill 1).2.2
  apply h
  · rw [List.getD_eq_getElem _ _ hlen]
    exact List.getElem_mem hlen
  · decide

/-- C9: the reported totalWinnings is exactly the sum of the levelPayout
fields of the recorded rounds, and every recorded round's totalPayout field
is the running sum of the level payouts up to and including that round. -/
theorem c9_totals_are_sums (cat : Catalog) (initialReelResult : List Reel)
    (vrf : Nat) (betAmount : ℚ) :
    (processCascadingReels cat initialReelResult vrf betAmount).totalWinnings
      = ((processCascadingReels cat initialReelResult vrf betAmount).cascades.map
          (fun rd => rd.levelPayout)).sum
  ∧ ∀ i, i < (processCascadingReels cat initialReelResult vrf betAmount).cascades.length →
      ((processCascadingReels cat initialReelResult vrf betAmount).cascades.getD i
          emptyRound).totalPayout
        = (((processCascadingReels cat initialReelResult vrf betAmount).cascades.take
            (i + 1)).map (fun rd => rd.levelPayout)).sum := by
  simp only [processCascadingReels]
  by_cases hW : (calculateWinningCombinations cat initialReelResult).hasWins = true
  · simp only [hW, if_true]
    have S := cascadeLoop_spec cat vrf betAmount maxCascades 0 initialReelResult
      true (0 + calculateTotalPayout
        (calculateWinningCombinations cat initialReelResult).combinations betAmount) 256
    obtain ⟨-, -, S3, S4⟩ := S
    refine ⟨?_, ?_⟩
    · simp only [List.map_cons, List.sum_cons]
      rw [S3]
      ring
    · intro i hi
      cases i with
      | zero =>
        simp only [List.getD_cons_zero, List.take_succ_cons, List.take_zero,
          List.map_cons, List.map_nil, List.sum_cons, List.sum_nil]
        ring
      | succ i =>
        simp only [List.getD_cons_succ, List.take_succ_cons, List.map_cons,
          List.sum_cons]
        simp only [List.length_cons] at hi
        rw [S4 i (by omega)]
        ring
  · simp only [Bool.not_eq_true] at hW
    simp [hW]

/-- Witness for C9 at a concrete spin that records exactly one round. -/
theorem c9_witness :
    0 < (processCascadingReels defaultCatalog gridBtcScatter
          vrfScatterRefill 1).cascades.length
  ∧ ((processCascadingReels defaultCatalog gridBtcScatter
        vrfScatterRefill 1).cascades.getD 0 emptyRound).totalPayout
      = (((processCascadingReels defaultCatalog gridBtcScatter
            vrfScatterRefill 1).cascades.take 1).map
          (fun rd => rd.levelPayout)).sum :=
  ⟨by decide,
    (c9_totals_are_sums defaultCatalog gridBtcScatter vrfScatterRefill 1).2 0
      (by decide)⟩
